import Mathlib

set_option maxRecDepth 100000

/-!
Verification of the wheat-reception dashboard core (`src/app.py`).

The pandas `DataFrame` manipulated by the program is embedded shallowly:

* a cell of a text column (`Cultivar`, `Categoria`, `Status`) is a `CellVal`
  (null / string / number), mirroring a pandas object column;
* a cell of a numeric column is an `Option ℚ`, the result of
  `pd.to_numeric(·, errors='coerce')`: `none` is `NaN` (missing or
  unparsable), `some q` a finite value — the program never produces
  non-finite floats from finite inputs, so `ℚ` is an exact model;
* column presence (`col in df.columns`) is a `Bool` flag on the table.

File/spreadsheet encoding is out of scope (the spec treats it as an
external collaborator), so the persisted store is modelled as the typed
table it holds.
-/

/-- Value of one cell of a pandas object column: missing (`NaN`),
a string, or a number. -/
inductive CellVal where
  | null
  | str (s : String)
  | num (q : ℚ)
deriving DecidableEq

/-- `pd.isna` on one cell. -/
def CellVal.isNull : CellVal → Bool
  | .null => true
  | _ => false

/-- `Series.fillna` on one cell. -/
def CellVal.fillna (v dflt : CellVal) : CellVal :=
  if v.isNull then dflt else v

/-- One row of the raw record store (`data.csv`) as read by `pd.read_csv`,
before normalization.  Numeric cells carry the result of the later
`pd.to_numeric(·, errors='coerce')` coercion: `none` for NaN/unparsable. -/
structure RawRow where
  cultivar : CellVal
  prev_colheita : Option ℚ
  prev_receb : Option ℚ
  recepcao : Option ℚ
  categoria : CellVal
  status : CellVal
deriving DecidableEq

/-- The raw record table: its rows plus, for each of the six canonical
columns, whether the column is present in the file (`col in df.columns`).
When a presence flag is `false` the corresponding cells of the rows are
ignored, as in pandas. -/
structure RawTable where
  rows : List RawRow
  hasCultivar : Bool
  hasPrevColheita : Bool
  hasPrevReceb : Bool
  hasRecepcao : Bool
  hasCategoria : Bool
  hasStatus : Bool
deriving DecidableEq

/-- One row of the canonical record set produced by
`load_and_process_data`: every column present, volumes numeric, `%`
derived. -/
structure CanonRow where
  cultivar : CellVal
  prev_colheita : ℚ
  prev_receb : ℚ
  recepcao : ℚ
  categoria : CellVal
  percent : ℚ
  status : CellVal
deriving DecidableEq

/-- `Series.round(2)`: round to two decimal places.  (The claims compare
the program's rounding against the spec formula through this same
function, so the tie-breaking convention is irrelevant to every claim.) -/
def round2 (x : ℚ) : ℚ := (((x * 100 + 1/2).floor : ℤ) : ℚ) / 100

/-- Missing-column fill for a text column (`df[col] = 'N/A'`), from
`load_and_process_data` lines 77–82. -/
def fillCell (has : Bool) (v : CellVal) : CellVal :=
  if has then v else CellVal.str "N/A"

/-- Missing-column fill plus `pd.to_numeric(·, errors='coerce').fillna(0)`
for a numeric column (lines 77–85). -/
def numVal (has : Bool) (v : Option ℚ) : ℚ :=
  if has then v.getD 0 else 0

/-- `get_status` from `load_and_process_data` (lines 92–100). -/
def get_status (row : CanonRow) : String :=
  if row.prev_receb = 0 then "Prev. Inválida"
  else if row.percent ≥ 100 then "OK"
  else if row.recepcao > 0 then "Em Andamento"
  else "Falta Receber"

/-- Per-row part of `load_and_process_data` before the Status branch:
missing-column defaults, numeric coercion and the `%` computation
`(df['Recepcao'] / df['Prev_Receb']).where(df['Prev_Receb'] != 0, 0)`
then `* 100` and `.round(2)` (lines 77–88). -/
def processRow (t : RawTable) (r : RawRow) : CanonRow :=
  let prev_colheita := numVal t.hasPrevColheita r.prev_colheita
  let prev_receb := numVal t.hasPrevReceb r.prev_receb
  let recepcao := numVal t.hasRecepcao r.recepcao
  { cultivar := fillCell t.hasCultivar r.cultivar
    prev_colheita := prev_colheita
    prev_receb := prev_receb
    recepcao := recepcao
    categoria := fillCell t.hasCategoria r.categoria
    percent := round2 ((if prev_receb ≠ 0 then recepcao / prev_receb else 0) * 100)
    status := fillCell t.hasStatus r.status }

/-- The branch condition of line 91.  After the fill loop of lines 77–82
the `Status` column always exists, so the code's disjunct
`'Status' not in df.columns` is identically false and the condition
reduces to `df['Status'].isna().all()`. -/
def statusAllNull (t : RawTable) : Bool :=
  ((t.rows.map (processRow t)).map CanonRow.status).all CellVal.isNull

/-- `load_and_process_data` (lines 63–107), from the point where the CSV
has been read into `t`. -/
def load_and_process_data (t : RawTable) : List CanonRow :=
  if statusAllNull t then
    (t.rows.map (processRow t)).map
      (fun c => { c with status := CellVal.str (get_status c) })
  else
    (t.rows.map (processRow t)).map
      (fun c => { c with status := c.status.fillna (CellVal.str "Em Andamento") })

/-- Row-wise part of `save_dataframe`: `reindex(columns=raw_cols)` keeps
only the six raw columns (dropping `%`), `.fillna(0)` replaces every null
cell by the number `0`. -/
def saveRow (r : CanonRow) : RawRow :=
  { cultivar := r.cultivar.fillna (CellVal.num 0)
    prev_colheita := some r.prev_colheita
    prev_receb := some r.prev_receb
    recepcao := some r.recepcao
    categoria := r.categoria.fillna (CellVal.num 0)
    status := r.status.fillna (CellVal.num 0) }

/-- `save_dataframe` (lines 109–113): the reindexed, null-filled table is
persisted as the whole store (full overwrite). -/
def save_dataframe (c : List CanonRow) : RawTable :=
  { rows := c.map saveRow
    hasCultivar := true
    hasPrevColheita := true
    hasPrevReceb := true
    hasRecepcao := true
    hasCategoria := true
    hasStatus := true }

theorem round2_zero : round2 0 = 0 := by with_unfolding_all decide

theorem statusAllNull_eq_false {t : RawTable} (hs : t.hasStatus = true)
    (h : ∃ r ∈ t.rows, r.status.isNull = false) : statusAllNull t = false := by
  rcases h with ⟨r, hr, hrs⟩
  simp only [statusAllNull, List.map_map]
  apply Bool.eq_false_iff.2
  intro hall
  have := (List.all_eq_true.1 hall) ((CanonRow.status ∘ processRow t) r)
    (List.mem_map_of_mem _ hr)
  simp only [Function.comp, processRow, fillCell, hs, if_true] at this
  rw [hrs] at this
  exact Bool.false_ne_true this

/-- C1: if the raw table has a Status column with at least one non-null
value, `load_and_process_data` keeps every non-null Status cell unchanged
and fills every null Status cell with "Em Andamento". -/
theorem status_stickiness (t : RawTable) (hs : t.hasStatus = true)
    (h : ∃ r ∈ t.rows, r.status.isNull = false) :
    (load_and_process_data t).map CanonRow.status
      = t.rows.map (fun r =>
          if r.status.isNull then CellVal.str "Em Andamento" else r.status) := by
  unfold load_and_process_data
  rw [statusAllNull_eq_false hs h]
  simp only [Bool.false_eq_true, if_false, List.map_map]
  apply List.map_congr_left
  intro r _
  simp only [Function.comp, processRow, fillCell, hs, if_true, CellVal.fillna]

/-- First row of the C1 witness table. -/
def c1Row0 : RawRow :=
  { cultivar := .str "A", prev_colheita := some 0, prev_receb := some 100,
    recepcao := some 50, categoria := .str "C", status := .str "OK" }

/-- Concrete two-row table for the C1 witness: one non-null Status, one
null Status. -/
def c1Table : RawTable :=
  { rows := [c1Row0,
             { cultivar := .str "B", prev_colheita := some 0,
               prev_receb := some 10, recepcao := some 0,
               categoria := .str "C", status := .null }],
    hasCultivar := true, hasPrevColheita := true, hasPrevReceb := true,
    hasRecepcao := true, hasCategoria := true, hasStatus := true }

/-- Witness for C1 at a concrete two-row table: the non-null Status "OK"
is preserved and the null Status becomes "Em Andamento". -/
theorem status_stickiness_witness :
    c1Table.hasStatus = true ∧
    (load_and_process_data c1Table).map CanonRow.status
      = [CellVal.str "OK", CellVal.str "Em Andamento"] := by
  constructor
  · rfl
  · rw [status_stickiness c1Table rfl ⟨c1Row0, List.mem_cons_self c1Row0 _, rfl⟩]
    with_unfolding_all decide

/-- Table with the Status column absent and one row with
`Prev_Receb = 0`, `Recepcao = 500` — the C2 failing input. -/
def c2Table : RawTable :=
  { rows := [{ cultivar := .str "A", prev_colheita := some 0,
               prev_receb := some 0, recepcao := some 500,
               categoria := .str "C", status := .null }],
    hasCultivar := true, hasPrevColheita := true, hasPrevReceb := true,
    hasRecepcao := true, hasCategoria := true, hasStatus := false }

/-- C2 (code bug evaluation): with the Status column absent and a row
having `Prev_Receb = 0`, `Recepcao = 500`, the code leaves the row's
Status as the fill string "N/A" instead of applying the automatic rule
(which would give "Prev. Inválida"): the fill loop of lines 77–82 inserts
'N/A' before the line-91 check, so the check's column-absence disjunct is
dead and `isna().all()` is false. -/
theorem status_absent_column_bug :
    (load_and_process_data c2Table).map CanonRow.status = [CellVal.str "N/A"] ∧
    CellVal.str "N/A" ≠ CellVal.str "Prev. Inválida" := by
  constructor
  · with_unfolding_all decide
  · with_unfolding_all decide

/-- C3: in every canonical row produced by `load_and_process_data`, the
`%` field equals `round(Recepcao / Prev_Receb * 100, 2)` when
`Prev_Receb ≠ 0` and `0` otherwise. -/
theorem percent_formula (t : RawTable) (r : CanonRow)
    (h : r ∈ load_and_process_data t) :
    r.percent = if r.prev_receb = 0 then 0
      else round2 (r.recepcao / r.prev_receb * 100) := by
  unfold load_and_process_data at h
  have key : ∀ c : CanonRow,
      c.percent = round2 ((if c.prev_receb ≠ 0 then c.recepcao / c.prev_receb else 0) * 100) →
      c.percent = if c.prev_receb = 0 then 0 else round2 (c.recepcao / c.prev_receb * 100) := by
    intro c hc
    by_cases hz : c.prev_receb = 0
    · rw [hc, hz]
      simp only [ne_eq, not_true_eq_false, if_false, zero_mul, round2_zero, if_true]
    · rw [hc]
      simp only [ne_eq, hz, not_false_iff, if_true, if_false]
  split at h
  all_goals
    obtain ⟨c, hc, rfl⟩ := List.mem_map.1 h
    obtain ⟨raw, _, rfl⟩ := List.mem_map.1 hc
    exact key _ rfl

/-- One-row table for the C3 witness. -/
def c3Table : RawTable :=
  { rows := [{ cultivar := .str "A", prev_colheita := some 0,
               prev_receb := some 1000, recepcao := some 400,
               categoria := .str "C", status := .null }],
    hasCultivar := true, hasPrevColheita := true, hasPrevReceb := true,
    hasRecepcao := true, hasCategoria := true, hasStatus := true }

/-- Canonical row expected from loading `c3Table`. -/
def c3Row : CanonRow :=
  { cultivar := .str "A", prev_colheita := 0, prev_receb := 1000,
    recepcao := 400, categoria := .str "C", percent := 40,
    status := .str "Em Andamento" }

/-- Witness for C3: `Prev_Receb = 1000`, `Recepcao = 400` gives `% = 40`. -/
theorem percent_formula_witness :
    c3Row ∈ load_and_process_data c3Table ∧
    c3Row.percent = if c3Row.prev_receb = 0 then 0
      else round2 (c3Row.recepcao / c3Row.prev_receb * 100) := by
  have hmem : c3Row ∈ load_and_process_data c3Table := by
    with_unfolding_all decide
  exact ⟨hmem, percent_formula c3Table c3Row hmem⟩

/-- The six raw columns of a canonical row (`raw_cols` in the source):
what `save_dataframe` persists, i.e. everything except the derived `%`. -/
structure CoreRow where
  cultivar : CellVal
  prev_colheita : ℚ
  prev_receb : ℚ
  recepcao : ℚ
  categoria : CellVal
  status : CellVal
deriving DecidableEq

/-- Projection of a canonical row to its six raw columns. -/
def CanonRow.core (r : CanonRow) : CoreRow :=
  { cultivar := r.cultivar, prev_colheita := r.prev_colheita,
    prev_receb := r.prev_receb, recepcao := r.recepcao,
    categoria := r.categoria, status := r.status }

/-- A canonical row with no null text cells. -/
def NullFreeRow (r : CanonRow) : Prop :=
  r.cultivar.isNull = false ∧ r.categoria.isNull = false ∧
    r.status.isNull = false

instance (r : CanonRow) : Decidable (NullFreeRow r) := by
  unfold NullFreeRow; infer_instance

/-- `save_dataframe` followed by `load_and_process_data`: one full
persistence round trip of the record store. -/
def roundTrip (c : List CanonRow) : List CanonRow :=
  load_and_process_data (save_dataframe c)

theorem CellVal.isNull_fillna_num (v : CellVal) :
    (v.fillna (CellVal.num 0)).isNull = false := by
  cases v <;> rfl

theorem CellVal.fillna_of_not_null {v : CellVal} (d : CellVal)
    (h : v.isNull = false) : v.fillna d = v := by
  unfold CellVal.fillna
  rw [h]
  rfl

theorem statusAllNull_save (c : List CanonRow) :
    statusAllNull (save_dataframe c) = c.isEmpty := by
  cases c with
  | nil => rfl
  | cons r rs =>
    have h : ∀ t : RawTable, t.hasStatus = true →
        (processRow t (saveRow r)).status.isNull = false := by
      intro t ht
      simp only [processRow, saveRow, fillCell, ht, if_true]
      exact CellVal.isNull_fillna_num r.status
    simp only [statusAllNull, save_dataframe, List.map_cons, List.map_map,
      List.all_cons, Function.comp, List.isEmpty_cons]
    rw [h _ rfl]
    rfl

theorem roundTrip_core_of_nullFree (c : List CanonRow)
    (h : ∀ r ∈ c, NullFreeRow r) :
    (roundTrip c).map CanonRow.core = c.map CanonRow.core := by
  unfold roundTrip load_and_process_data
  rw [statusAllNull_save]
  cases c with
  | nil => rfl
  | cons r0 rs =>
    simp only [List.isEmpty_cons, Bool.false_eq_true, if_false,
      save_dataframe, List.map_map]
    apply List.map_congr_left
    intro r hr
    obtain ⟨hcu, hca, hst⟩ := h r hr
    simp only [Function.comp, processRow, saveRow, fillCell, numVal,
      if_true, Option.getD_some, CanonRow.core,
      CellVal.fillna_of_not_null _ hcu, CellVal.fillna_of_not_null _ hca,
      CellVal.fillna_of_not_null _ hst,
      CellVal.fillna_of_not_null _ hst]

theorem roundTrip_nullFree (c : List CanonRow) :
    ∀ r ∈ roundTrip c, NullFreeRow r := by
  intro r hr
  unfold roundTrip load_and_process_data at hr
  split at hr
  all_goals
    obtain ⟨c1, hc1, rfl⟩ := List.mem_map.1 hr
    obtain ⟨raw, hraw, rfl⟩ := List.mem_map.1 hc1
    simp only [save_dataframe, List.mem_map] at hraw
    obtain ⟨r0, _, rfl⟩ := hraw
    refine ⟨?_, ?_, ?_⟩ <;>
      simp only [processRow, saveRow, fillCell, save_dataframe, if_true,
        CellVal.isNull_fillna_num]
  · rfl
  · rw [CellVal.fillna_of_not_null _ (CellVal.isNull_fillna_num r0.status)]
    exact CellVal.isNull_fillna_num r0.status

/-- C9 (amended): a save-then-load round trip reproduces all six
canonical columns for every canonical record set with no null text
cells, and for an arbitrary canonical record set the second round trip
changes nothing (the first one replaces null text cells by the number
`0`, which is what `fillna(0)` writes). -/
theorem save_load_round_trip (c : List CanonRow) :
    ((∀ r ∈ c, NullFreeRow r) →
      (roundTrip c).map CanonRow.core = c.map CanonRow.core) ∧
    (roundTrip (roundTrip c)).map CanonRow.core
      = (roundTrip c).map CanonRow.core :=
  ⟨roundTrip_core_of_nullFree c,
   roundTrip_core_of_nullFree (roundTrip c) (roundTrip_nullFree c)⟩

/-- Null-free canonical row for the C9 witness. -/
def c9Row : CanonRow :=
  { cultivar := .str "A", prev_colheita := 1, prev_receb := 1000,
    recepcao := 400, categoria := .str "C", percent := 40,
    status := .str "OK" }

/-- Witness for C9: on the null-free one-row set `[c9Row]` the round trip
reproduces the six canonical columns. -/
theorem save_load_round_trip_witness :
    (roundTrip [c9Row]).map CanonRow.core = [c9Row].map CanonRow.core :=
  (save_load_round_trip [c9Row]).1 (by decide)

/-- Raw table whose single row has a null Cultivar cell — source of the
C9 counterexample. -/
def c9NullTable : RawTable :=
  { rows := [{ cultivar := .null, prev_colheita := some 1,
               prev_receb := some 100, recepcao := some 50,
               categoria := .str "C", status := .str "OK" }],
    hasCultivar := true, hasPrevColheita := true, hasPrevReceb := true,
    hasRecepcao := true, hasCategoria := true, hasStatus := true }

/-- C9 counterexample: for the canonical record set loaded from
`c9NullTable` (one row whose Cultivar cell is null), one save-load round
trip does not reproduce the canonical values — `fillna(0)` in
`save_dataframe` turns the null Cultivar into the number `0`. -/
theorem save_load_round_trip_cex :
    (roundTrip (load_and_process_data c9NullTable)).map CanonRow.core
      ≠ (load_and_process_data c9NullTable).map CanonRow.core := by
  with_unfolding_all decide

/-- The form data of a `/register` call after the `float(...)`
conversions succeeded (`register_cultivar`, lines 953–961). -/
structure RegisterFields where
  cultivar : String
  categoria : String
  prev_colheita : ℚ
  prev_receb : ℚ
  recepcao : ℚ
deriving DecidableEq

/-- `register_cultivar` (lines 951–967): load the current canonical set,
append the new record with Status "Em Andamento", save.  The `%` cell of
the appended row is null in the code and is dropped by `save_dataframe`
together with the whole `%` column, so its modelled value (0) is never
read. -/
def register_cultivar (t : RawTable) (f : RegisterFields) : RawTable :=
  save_dataframe (load_and_process_data t ++
    [{ cultivar := CellVal.str f.cultivar
       prev_colheita := f.prev_colheita
       prev_receb := f.prev_receb
       recepcao := f.recepcao
       categoria := CellVal.str f.categoria
       percent := 0
       status := CellVal.str "Em Andamento" }])

/-- C10: every successful register call appends a record whose stored
Status is "Em Andamento" (whatever the submitted volumes), and the stored
table then fails the line-91 all-null test, so the automatic status rule
is not applied on any subsequent load. -/
theorem register_status (t : RawTable) (f : RegisterFields) :
    ((register_cultivar t f).rows.getLast?).map RawRow.status
      = some (CellVal.str "Em Andamento") ∧
    statusAllNull (register_cultivar t f) = false := by
  constructor
  · simp only [register_cultivar, save_dataframe, List.map_append,
      List.map_cons, List.map_nil, List.getLast?_concat, Option.map_some]
    rfl
  · rw [register_cultivar, statusAllNull_save]
    simp

/-- One imported timeline spreadsheet row, after `pd.read_excel` and the
two validation coercions: `data` is the `pd.to_datetime(·,
errors='coerce')` result as a day number (`none` = NaT/unparsable),
`quantidade` the `pd.to_numeric(·, errors='coerce')` result. -/
structure TLImportRow where
  responsavel : CellVal
  data : Option ℤ
  turno : CellVal
  cultivar : CellVal
  quantidade : Option ℚ
deriving DecidableEq

/-- The imported timeline table with its column-presence flags for the
five required columns. -/
structure TLImportTable where
  rows : List TLImportRow
  hasResponsavel : Bool
  hasData : Bool
  hasTurno : Bool
  hasCultivar : Bool
  hasQuantidade : Bool
deriving DecidableEq

/-- A timeline row that passed validation: date and quantity parsed. -/
structure TLValidRow where
  data : ℤ
  cultivar : CellVal
  quantidade : ℚ
deriving DecidableEq

/-- One canonical timeline record: Data, Cultivar, Categoria, Volume_SC. -/
structure TLRecord where
  data : ℤ
  cultivar : CellVal
  categoria : CellVal
  volume_sc : ℚ
deriving DecidableEq

/-- Python dict assignment `d[k] = v` on a dict kept as an insertion
ordered association list: overwrite in place when the key exists, else
append. -/
def dictInsert (d : List (CellVal × CellVal)) (k v : CellVal) :
    List (CellVal × CellVal) :=
  if d.any (fun p => p.1 == k) then
    d.map (fun p => if p.1 == k then (p.1, v) else p)
  else d ++ [(k, v)]

/-- Python `dict(zip(ks, vs))`: insert the pairs left to right, so a
later pair overwrites an earlier one with the same key. -/
def dictOfZip (ps : List (CellVal × CellVal)) : List (CellVal × CellVal) :=
  ps.foldl (fun d p => dictInsert d p.1 p.2) []

/-- Python `d.get(k, dflt)`. -/
def dictGet (d : List (CellVal × CellVal)) (k dflt : CellVal) : CellVal :=
  match d.find? (fun p => p.1 == k) with
  | some p => p.2
  | none => dflt

/-- Line 147 of `process_timeline_data`:
`dict(zip(main_df['Cultivar'], main_df['Categoria']))`. -/
def cultivar_to_category (main : List CanonRow) : List (CellVal × CellVal) :=
  dictOfZip (main.map (fun r => (r.cultivar, r.categoria)))

/-- `process_timeline_data` (lines 136–167) on validated rows, with the
canonical record set (loaded inside the function in the code) passed as
`main`: Categoria comes from `cultivar_to_category` with default "N/A",
and `Volume_SC = Quantidade (Kg) / 60.0`. -/
def process_timeline_data (main : List CanonRow) (rows : List TLValidRow) :
    List TLRecord :=
  rows.map (fun r =>
    { data := r.data
      cultivar := r.cultivar
      categoria := dictGet (cultivar_to_category main) r.cultivar
        (CellVal.str "N/A")
      volume_sc := r.quantidade / 60 })

/-- Modelled from the spec words for C4: the first-seen-wins lookup the
spec describes — the Categoria of the first canonical record whose
Cultivar is `c`, "N/A" when there is none. -/
def firstSeenCategoria (main : List CanonRow) (c : CellVal) : CellVal :=
  match main.find? (fun r => r.cultivar == c) with
  | some r => r.categoria
  | none => CellVal.str "N/A"

/-- The lookup `dict(zip(...)).get(·, 'N/A')` actually implements (proved
below): the Categoria of the last canonical record whose Cultivar is `c`,
"N/A" when there is none. -/
def lastSeenCategoria (main : List CanonRow) (c : CellVal) : CellVal :=
  match main.reverse.find? (fun r => r.cultivar == c) with
  | some r => r.categoria
  | none => CellVal.str "N/A"

theorem dictGet_dictInsert (d : List (CellVal × CellVal)) (k0 v0 k dflt : CellVal) :
    dictGet (dictInsert d k0 v0) k dflt
      = if k0 = k then v0 else dictGet d k dflt := by
  unfold dictInsert dictGet
  by_cases hmem : d.any (fun p => p.1 == k0) = true
  · rw [if_pos hmem]
    have hpred : ((fun p : CellVal × CellVal => p.1 == k)
        ∘ (fun p => if p.1 == k0 then (p.1, v0) else p))
        = fun p : CellVal × CellVal => p.1 == k := by
      funext p
      by_cases h : p.1 == k0 <;> simp [Function.comp, h]
    rw [List.find?_map, hpred]
    by_cases hk : k0 = k
    · subst hk
      have hsome : (d.find? (fun p => p.1 == k0)).isSome := by
        rw [List.find?_isSome]
        obtain ⟨p, hp, hpk⟩ := List.any_eq_true.1 hmem
        exact ⟨p, hp, hpk⟩
      obtain ⟨p0, hp0⟩ := Option.isSome_iff_exists.1 hsome
      have hkey := List.find?_some hp0
      rw [hp0, if_pos rfl]
      simp only [Option.map, hkey, if_true]
    · rw [if_neg hk]
      cases hfind : d.find? (fun p => p.1 == k) with
      | none => rfl
      | some q =>
        have hkey := List.find?_some hfind
        have hq : (q.1 == k0) = false := by
          apply beq_eq_false_iff_ne.2
          intro h
          exact hk (h.symm.trans (beq_iff_eq.1 hkey))
        simp only [Option.map, hq, Bool.false_eq_true, if_false]
  · rw [if_neg hmem, List.find?_append]
    by_cases hk : k0 = k
    · subst hk
      have hnone : d.find? (fun p => p.1 == k0) = none := by
        rw [List.find?_eq_none]
        intro p hp hpk
        exact hmem (List.any_eq_true.2 ⟨p, hp, hpk⟩)
      rw [hnone, if_pos rfl]
      simp [List.find?]
    · rw [if_neg hk]
      have hsingle : List.find? (fun p : CellVal × CellVal => p.1 == k)
          [(k0, v0)] = none := by
        simp [List.find?, beq_eq_false_iff_ne.2 hk]
      rw [hsingle, Option.or_none]

theorem dictGet_foldl (ps : List (CellVal × CellVal)) :
    ∀ (d : List (CellVal × CellVal)) (k dflt : CellVal),
      dictGet (ps.foldl (fun d p => dictInsert d p.1 p.2) d) k dflt
        = match ps.reverse.find? (fun p => p.1 == k) with
          | some p => p.2
          | none => dictGet d k dflt := by
  induction ps with
  | nil =>
    intro d k dflt
    rfl
  | cons p ps ih =>
    intro d k dflt
    rw [List.foldl_cons, ih, List.reverse_cons, List.find?_append]
    cases hfind : ps.reverse.find? (fun q => q.1 == k) with
    | some q => rfl
    | none =>
      rw [dictGet_dictInsert]
      by_cases hk : p.1 = k
      · have hone : List.find? (fun q : CellVal × CellVal => q.1 == k) [p]
            = some p := by
          simp [List.find?, hk]
        rw [hone, if_pos hk]
        rfl
      · have hone : List.find? (fun q : CellVal × CellVal => q.1 == k) [p]
            = none := by
          simp [List.find?, beq_eq_false_iff_ne.2 hk]
        rw [hone, if_neg hk]
        rfl

theorem dictGet_cultivar_to_category (main : List CanonRow) (c dflt : CellVal) :
    dictGet (cultivar_to_category main) c dflt
      = match main.reverse.find? (fun r => r.cultivar == c) with
        | some r => r.categoria
        | none => dflt := by
  unfold cultivar_to_category dictOfZip
  rw [dictGet_foldl, ← List.map_reverse, List.find?_map]
  have hcomp : ((fun p : CellVal × CellVal => p.1 == c)
      ∘ (fun r : CanonRow => (r.cultivar, r.categoria)))
      = fun r : CanonRow => r.cultivar == c := rfl
  rw [hcomp]
  cases hfind : main.reverse.find? (fun r => r.cultivar == c) with
  | some r => rfl
  | none => rfl

/-- C4 (amended): `process_timeline_data` fills each imported event's
Categoria through the Cultivar→Categoria dict built from the canonical
record set; since Python's `dict(zip(...))` lets a later pair overwrite
an earlier one with the same key, when a Cultivar appears in several
records the LAST-seen record's Categoria wins (not the first-seen), and
events whose Cultivar is absent from the canonical set get "N/A". -/
theorem timeline_categoria_lookup (main : List CanonRow)
    (rows : List TLValidRow) :
    (process_timeline_data main rows).map TLRecord.categoria
      = rows.map (fun r => lastSeenCategoria main r.cultivar) ∧
    ∀ c : CellVal, (∀ r ∈ main, r.cultivar ≠ c) →
      lastSeenCategoria main c = CellVal.str "N/A" := by
  constructor
  · unfold process_timeline_data
    rw [List.map_map]
    apply List.map_congr_left
    intro r _
    show dictGet (cultivar_to_category main) r.cultivar (CellVal.str "N/A")
      = lastSeenCategoria main r.cultivar
    rw [dictGet_cultivar_to_category]
    rfl
  · intro c hc
    unfold lastSeenCategoria
    have hnone : main.reverse.find? (fun r => r.cultivar == c) = none := by
      rw [List.find?_eq_none]
      intro r hr h
      exact hc r (List.mem_reverse.1 hr) (beq_iff_eq.1 h)
    rw [hnone]

/-- Canonical set with a duplicated Cultivar "A": first record has
Categoria "X", the second "Y" (C4 counterexample input). -/
def c4Main : List CanonRow :=
  [{ cultivar := .str "A", prev_colheita := 0, prev_receb := 100,
     recepcao := 10, categoria := .str "X", percent := 10,
     status := .str "OK" },
   { cultivar := .str "A", prev_colheita := 0, prev_receb := 200,
     recepcao := 20, categoria := .str "Y", percent := 10,
     status := .str "OK" }]

/-- Imported event for Cultivar "A" (C4 counterexample input). -/
def c4Event : TLValidRow :=
  { data := 0, cultivar := .str "A", quantidade := 60 }

/-- C4 counterexample: on `c4Main` the imported event's Categoria is the
last-seen "Y", not the first-seen "X" that the claim asserts. -/
theorem timeline_categoria_lookup_cex :
    (process_timeline_data c4Main [c4Event]).map TLRecord.categoria
      ≠ [firstSeenCategoria c4Main (CellVal.str "A")] ∧
    (process_timeline_data c4Main [c4Event]).map TLRecord.categoria
      = [CellVal.str "Y"] ∧
    firstSeenCategoria c4Main (CellVal.str "A") = CellVal.str "X" := by
  refine ⟨?_, ?_, ?_⟩ <;> with_unfolding_all decide

/-- Witness for C4: on `c4Main` a cultivar absent from the canonical set
is looked up as "N/A". -/
theorem timeline_categoria_lookup_witness :
    lastSeenCategoria c4Main (CellVal.str "Z") = CellVal.str "N/A" :=
  (timeline_categoria_lookup c4Main []).2 (CellVal.str "Z") (by decide)

/-- `import_timeline_data` (lines 713–752), from the point where
`pd.read_excel` succeeded: required-column check, date validation,
quantity validation, then processing and persistence.  Returns the route
result together with the timeline store after the call: on any
validation error the stored timeline is unchanged; on success it is
replaced by the processed records (full overwrite by
`save_timeline_data`). -/
def import_timeline_data (main : List CanonRow) (inp : TLImportTable)
    (store : List TLRecord) : Except String Unit × List TLRecord :=
  if ¬(inp.hasResponsavel = true ∧ inp.hasData = true ∧ inp.hasTurno = true ∧
        inp.hasCultivar = true ∧ inp.hasQuantidade = true) then
    (Except.error "O arquivo deve ter as colunas exigidas", store)
  else if inp.rows.any (fun r => r.data.isNone) then
    (Except.error "Datas inválidas no arquivo. Use formato AAAA-MM-DD", store)
  else if inp.rows.any (fun r => r.quantidade.isNone) then
    (Except.error "Valores de quantidade inválidos no arquivo", store)
  else
    (Except.ok (),
     process_timeline_data main
       (inp.rows.map (fun r =>
         { data := r.data.getD 0
           cultivar := r.cultivar
           quantidade := r.quantidade.getD 0 })))

/-- C5: any row with an unparsable date or quantity makes the whole
timeline import fail and leaves the persisted timeline store unchanged
(all-or-nothing); conversely, when the five required columns are present
and every date and quantity parses, the import succeeds. -/
theorem timeline_import_all_or_nothing (main : List CanonRow)
    (inp : TLImportTable) (store : List TLRecord) :
    ((∃ r ∈ inp.rows, r.data = none ∨ r.quantidade = none) →
      (import_timeline_data main inp store).1.isOk = false ∧
      (import_timeline_data main inp store).2 = store) ∧
    ((inp.hasResponsavel = true ∧ inp.hasData = true ∧ inp.hasTurno = true ∧
        inp.hasCultivar = true ∧ inp.hasQuantidade = true) →
      (∀ r ∈ inp.rows, r.data ≠ none ∧ r.quantidade ≠ none) →
      (import_timeline_data main inp store).1.isOk = true) := by
  constructor
  · rintro ⟨r, hr, hbad⟩
    unfold import_timeline_data
    split
    · exact ⟨rfl, rfl⟩
    · split
      · exact ⟨rfl, rfl⟩
      · rename_i hcols hdata
        have hq : inp.rows.any (fun r => r.quantidade.isNone) = true := by
          apply List.any_eq_true.2
          refine ⟨r, hr, ?_⟩
          rcases hbad with hb | hb
          · exfalso
            apply hdata
            apply List.any_eq_true.2
            exact ⟨r, hr, by rw [hb]; rfl⟩
          · rw [hb]
            rfl
        rw [if_pos hq]
        exact ⟨rfl, rfl⟩
  · intro hcols hgood
    unfold import_timeline_data
    rw [if_neg (not_not_intro hcols)]
    rw [if_neg (fun h => by
      obtain ⟨r, hr, his⟩ := List.any_eq_true.1 h
      exact (hgood r hr).1 (Option.isNone_iff_eq_none.1 his))]
    rw [if_neg (fun h => by
      obtain ⟨r, hr, his⟩ := List.any_eq_true.1 h
      exact (hgood r hr).2 (Option.isNone_iff_eq_none.1 his))]
    rfl

/-- Imported timeline row with an unparsable date (C5 witness input). -/
def c5BadRow : TLImportRow :=
  { responsavel := .str "J", data := none, turno := .str "M",
    cultivar := .str "A", quantidade := some 60 }

/-- Imported timeline table containing `c5BadRow`. -/
def c5BadTable : TLImportTable :=
  { rows := [c5BadRow], hasResponsavel := true, hasData := true,
    hasTurno := true, hasCultivar := true, hasQuantidade := true }

/-- Witness for C5: importing a table whose single row has an unparsable
date fails and leaves the (empty) store unchanged. -/
theorem timeline_import_all_or_nothing_witness :
    (import_timeline_data [] c5BadTable []).1.isOk = false ∧
    (import_timeline_data [] c5BadTable []).2 = [] :=
  (timeline_import_all_or_nothing [] c5BadTable []).1
    ⟨c5BadRow, List.mem_cons_self c5BadRow [], Or.inl rfl⟩

/-- One group of
`df.groupby('Cultivar').agg(Total_Previsto=('Prev_Receb','sum'), Total_Recebido=('Recepcao','sum'))`. -/
structure GroupAgg where
  cultivar : CellVal
  total_previsto : ℚ
  total_recebido : ℚ
deriving DecidableEq

/-- `df.groupby('Cultivar')` with the two sums (lines 230–233).  pandas
drops rows whose group key is NaN; keys are listed here in first
occurrence order (pandas sorts them — a presentational difference no
claim depends on). -/
def groupByCultivar (df : List CanonRow) : List GroupAgg :=
  ((df.filter (fun r => !r.cultivar.isNull)).map CanonRow.cultivar).eraseDups.map
    (fun c =>
      { cultivar := c
        total_previsto :=
          (((df.filter (fun r => !r.cultivar.isNull)).filter
            (fun r => r.cultivar == c)).map CanonRow.prev_receb).sum
        total_recebido :=
          (((df.filter (fun r => !r.cultivar.isNull)).filter
            (fun r => r.cultivar == c)).map CanonRow.recepcao).sum })

/-- The ByCultivar view of `create_bar_grouped_graph` (lines 230–235):
group sums, then `summary_df[summary_df['Total_Previsto'] > 0]`. -/
def create_bar_grouped_view (df : List CanonRow) : List GroupAgg :=
  (groupByCultivar df).filter (fun g => 0 < g.total_previsto)

/-- The Difference view of `create_diff_bar_graph` (lines 371–375):
`df['Diferenca'] = df['Recepcao'] - df['Prev_Receb']`, then
`df = df[df['Prev_Receb'] > 0]`, then sort by difference descending
(a stable sort; the pandas tie order is implementation defined and no
claim depends on it), charted as (Cultivar, Diferenca). -/
def create_diff_bar_view (df : List CanonRow) : List (CellVal × ℚ) :=
  (List.insertionSort (fun a b : CanonRow × ℚ => b.2 ≤ a.2)
      ((df.map (fun r => (r, r.recepcao - r.prev_receb))).filter
        (fun p => 0 < p.1.prev_receb))).map
    (fun p => (p.1.cultivar, p.2))

/-- The PercentRanked view of `create_percent_bar_graph` (lines
417–418): `df = df[df['Prev_Receb'] > 0]`, then sort by `%` ascending,
charted as (Cultivar, %). -/
def create_percent_bar_view (df : List CanonRow) : List (CellVal × ℚ) :=
  (List.insertionSort (fun a b : CanonRow => a.percent ≤ b.percent)
      (df.filter (fun r => 0 < r.prev_receb))).map
    (fun r => (r.cultivar, r.percent))

/-- The TopN view of `create_top_cultivars_graph` (lines 507–508):
`df.nlargest(10, 'Recepcao')` — the rows sorted by Recepcao descending
(ties kept in original order, pandas `keep='first'`), truncated to 10. -/
def create_top_cultivars_view (df : List CanonRow) : List CanonRow :=
  (List.insertionSort (fun a b : CanonRow => b.recepcao ≤ a.recepcao) df).take 10

/-- The rows `nlargest(10, 'Recepcao')` leaves out: the remainder of the
descending sort after the first 10 rows. -/
def topExcluded (df : List CanonRow) : List CanonRow :=
  (List.insertionSort (fun a b : CanonRow => b.recepcao ≤ a.recepcao) df).drop 10

theorem filter_pos_prev_and_ne (r : CanonRow) :
    (decide (0 < r.prev_receb) && decide (r.prev_receb ≠ 0))
      = decide (0 < r.prev_receb) := by
  by_cases h : 0 < r.prev_receb
  · simp [h, ne_of_gt h]
  · simp [h]

/-- C6 (amended): the Difference and PercentRanked views exclude every
row with `Prev_Receb = 0` (removing such rows changes nothing), while the
ByCultivar view only excludes whole cultivar groups whose summed
`Total_Previsto` is not positive — a `Prev_Receb = 0` row inside a group
with positive total still contributes its Recepcao to the group sums. -/
theorem aggregation_prev_zero_exclusion (df : List CanonRow) :
    create_diff_bar_view df
      = create_diff_bar_view (df.filter (fun r => r.prev_receb ≠ 0)) ∧
    create_percent_bar_view df
      = create_percent_bar_view (df.filter (fun r => r.prev_receb ≠ 0)) ∧
    ∀ g ∈ create_bar_grouped_view df, 0 < g.total_previsto := by
  refine ⟨?_, ?_, ?_⟩
  · unfold create_diff_bar_view
    rw [List.filter_map, List.filter_map, List.filter_filter]
    apply congrArg
    apply congrArg
    apply congrArg
    apply List.filter_congr
    intro a _
    exact (filter_pos_prev_and_ne a).symm
  · unfold create_percent_bar_view
    rw [List.filter_filter]
    apply congrArg
    apply congrArg
    apply List.filter_congr
    intro a _
    exact (filter_pos_prev_and_ne a).symm
  · intro g hg
    have := (List.mem_filter.1 hg).2
    exact of_decide_eq_true this

/-- Record set with two rows of the same Cultivar "A", one of which has
`Prev_Receb = 0` but `Recepcao = 5` (C6 counterexample input). -/
def c6Dup : List CanonRow :=
  [{ cultivar := .str "A", prev_colheita := 0, prev_receb := 10,
     recepcao := 1, categoria := .str "C", percent := 10,
     status := .str "OK" },
   { cultivar := .str "A", prev_colheita := 0, prev_receb := 0,
     recepcao := 5, categoria := .str "C", percent := 0,
     status := .str "OK" }]

/-- C6 counterexample: in the ByCultivar view the `Prev_Receb = 0` row of
`c6Dup` does contribute — its Recepcao 5 enters the group total (6 with
the row, 1 without), so removing the row changes the view. -/
theorem aggregation_prev_zero_exclusion_cex :
    create_bar_grouped_view c6Dup
      ≠ create_bar_grouped_view (c6Dup.filter (fun r => r.prev_receb ≠ 0)) ∧
    create_bar_grouped_view c6Dup
      = [{ cultivar := .str "A", total_previsto := 10, total_recebido := 6 }] := by
  constructor
  · with_unfolding_all decide
  · with_unfolding_all decide

/-- One-row record set for the C6 witness. -/
def c6One : List CanonRow :=
  [{ cultivar := .str "A", prev_colheita := 0, prev_receb := 10,
     recepcao := 1, categoria := .str "C", percent := 10,
     status := .str "OK" }]

/-- The single group produced by the ByCultivar view of `c6One`. -/
def c6Group : GroupAgg :=
  { cultivar := .str "A", total_previsto := 10, total_recebido := 1 }

/-- Witness for C6: every group kept by the ByCultivar view of `c6One`
has a positive total forecast. -/
theorem aggregation_prev_zero_exclusion_witness :
    (0 : ℚ) < c6Group.total_previsto :=
  (aggregation_prev_zero_exclusion c6One).2.2 c6Group
    (by with_unfolding_all decide)

/-- C8: the TopN view returns at most 10 rows, sorted by Recepcao in
descending order; together with the rows it leaves out it is a
permutation of the input, and every returned row's Recepcao is greater
than or equal to that of every row not returned. -/
theorem top_cultivars_ranking (df : List CanonRow) :
    (create_top_cultivars_view df).length ≤ 10 ∧
    (create_top_cultivars_view df).Sorted
      (fun a b : CanonRow => b.recepcao ≤ a.recepcao) ∧
    (create_top_cultivars_view df ++ topExcluded df).Perm df ∧
    (∀ a ∈ create_top_cultivars_view df, ∀ b ∈ topExcluded df,
      b.recepcao ≤ a.recepcao) := by
  haveI htot : IsTotal CanonRow (fun a b : CanonRow => b.recepcao ≤ a.recepcao) :=
    ⟨fun a b => le_total b.recepcao a.recepcao⟩
  haveI htrans : IsTrans CanonRow (fun a b : CanonRow => b.recepcao ≤ a.recepcao) :=
    ⟨fun _ _ _ hab hbc => le_trans hbc hab⟩
  have hsorted := List.sorted_insertionSort
    (fun a b : CanonRow => b.recepcao ≤ a.recepcao) df
  refine ⟨?_, ?_, ?_, ?_⟩
  · unfold create_top_cultivars_view
    rw [List.length_take]
    exact min_le_left _ _
  · exact List.Pairwise.sublist (List.take_sublist _ _) hsorted
  · unfold create_top_cultivars_view topExcluded
    rw [List.take_append_drop]
    exact List.perm_insertionSort _ df
  · intro a ha b hb
    have hsplit := hsorted
    rw [← List.take_append_drop 10
      (List.insertionSort (fun a b : CanonRow => b.recepcao ≤ a.recepcao) df)]
      at hsplit
    exact (List.pairwise_append.1 hsplit).2.2 a ha b hb

/-- Canonical row with Recepcao `n` (C8 witness input). -/
def c8Row (n : ℚ) : CanonRow :=
  { cultivar := .num n, prev_colheita := 0, prev_receb := 100,
    recepcao := n, categoria := .str "C", percent := 0,
    status := .str "OK" }

/-- Eleven-row record set for the C8 witness. -/
def c8Df : List CanonRow :=
  [c8Row 11, c8Row 10, c8Row 9, c8Row 8, c8Row 7, c8Row 6, c8Row 5,
   c8Row 4, c8Row 3, c8Row 2, c8Row 1]

/-- Witness for C8: on `c8Df` the returned row with Recepcao 11
dominates the left-out row with Recepcao 1. -/
theorem top_cultivars_ranking_witness :
    (c8Row 1).recepcao ≤ (c8Row 11).recepcao :=
  (top_cultivars_ranking c8Df).2.2.2 (c8Row 11)
    (by with_unfolding_all decide) (c8Row 1)
    (by with_unfolding_all decide)

/-- `random.randint(lo, hi)` driven by one raw draw of an injectable
random stream: `lo + draw % (hi - lo + 1)`, always within `[lo, hi]`. -/
def randint (lo hi draw : ℕ) : ℕ := lo + draw % (hi - lo + 1)

/-- One generated sample entry (`sample_data.append({...})`, lines
190–195): day offset from `start_date` (0 to 60, where 60 is "now"),
cultivar, categoria and the daily volume. -/
structure SampleEntry where
  data : ℕ
  cultivar : CellVal
  categoria : CellVal
  volume_sc : ℚ
deriving DecidableEq

/-- The while loop of `generate_sample_timeline_data` (lines 186–197)
for one record: while `remaining > 0` and the date has not passed "now"
(day 60 after `start_date = now - 60 days`), consume
`min(randint(100, 1000), remaining)` and advance the date by
`randint(1, 3)` days.  `rng` is the injectable random stream and `i` the
index of its next draw (two draws per iteration); the result pairs the
generated entries with the next unused index.  Every iteration advances
the date by at least 1 day and requires `date ≤ 60`, so at most 61
iterations are possible from `date = 0` and the structural `fuel` of 61
used below never cuts the loop short. -/
def genLoop (cult cat : CellVal) (rng : ℕ → ℕ) :
    ℕ → ℕ → ℚ → ℕ → List SampleEntry × ℕ
  | 0, i, _, _ => ([], i)
  | fuel + 1, i, remaining, date =>
    if 0 < remaining ∧ date ≤ 60 then
      if 0 < min ((randint 100 1000 (rng i) : ℕ) : ℚ) remaining then
        ({ data := date, cultivar := cult, categoria := cat,
           volume_sc := min ((randint 100 1000 (rng i) : ℕ) : ℚ) remaining } ::
          (genLoop cult cat rng fuel (i + 2)
            (remaining - min ((randint 100 1000 (rng i) : ℕ) : ℚ) remaining)
            (date + randint 1 3 (rng (i + 1)))).1,
         (genLoop cult cat rng fuel (i + 2)
            (remaining - min ((randint 100 1000 (rng i) : ℕ) : ℚ) remaining)
            (date + randint 1 3 (rng (i + 1)))).2)
      else
        genLoop cult cat rng fuel (i + 2) remaining
          (date + randint 1 3 (rng (i + 1)))
    else ([], i)

/-- The per-record loop of `generate_sample_timeline_data` (lines
179–197): each record with `Recepcao > 0` generates entries via
`genLoop`, the random stream index threading across records. -/
def genAll (rng : ℕ → ℕ) : List CanonRow → ℕ → List SampleEntry × ℕ
  | [], i => ([], i)
  | r :: rs, i =>
    if 0 < r.recepcao then
      ((genLoop r.cultivar r.categoria rng 61 i r.recepcao 0).1
         ++ (genAll rng rs
              (genLoop r.cultivar r.categoria rng 61 i r.recepcao 0).2).1,
       (genAll rng rs
         (genLoop r.cultivar r.categoria rng 61 i r.recepcao 0).2).2)
    else genAll rng rs i

/-- `generate_sample_timeline_data` (lines 169–204) in the branch where
the timeline store is empty and the canonical set is not: the sample
entries generated for canonical set `main` under random stream `rng`. -/
def generate_sample_timeline_data (main : List CanonRow) (rng : ℕ → ℕ) :
    List SampleEntry :=
  (genAll rng main 0).1

theorem genLoop_cultivar (cult cat : CellVal) (rng : ℕ → ℕ) :
    ∀ (fuel i : ℕ) (rem : ℚ) (date : ℕ),
      ∀ e ∈ (genLoop cult cat rng fuel i rem date).1, e.cultivar = cult := by
  intro fuel
  induction fuel with
  | zero => intro i rem date e he; simp [genLoop] at he
  | succ fuel ih =>
    intro i rem date e he
    rw [genLoop] at he
    split at he
    · split at he
      · rcases List.mem_cons.1 he with rfl | he2
        · rfl
        · exact ih _ _ _ e he2
      · exact ih _ _ _ e he
    · simp at he

theorem genLoop_volume_pos (cult cat : CellVal) (rng : ℕ → ℕ) :
    ∀ (fuel i : ℕ) (rem : ℚ) (date : ℕ),
      ∀ e ∈ (genLoop cult cat rng fuel i rem date).1, 0 < e.volume_sc := by
  intro fuel
  induction fuel with
  | zero => intro i rem date e he; simp [genLoop] at he
  | succ fuel ih =>
    intro i rem date e he
    rw [genLoop] at he
    split at he
    · split at he
      · rename_i hdaily
        rcases List.mem_cons.1 he with rfl | he2
        · exact hdaily
        · exact ih _ _ _ e he2
      · exact ih _ _ _ e he
    · simp at he

theorem genLoop_sum_le (cult cat : CellVal) (rng : ℕ → ℕ) :
    ∀ (fuel i : ℕ) (rem : ℚ) (date : ℕ), 0 ≤ rem →
      (((genLoop cult cat rng fuel i rem date).1.map
        SampleEntry.volume_sc).sum) ≤ rem := by
  intro fuel
  induction fuel with
  | zero => intro i rem date h; simp [genLoop]; exact h
  | succ fuel ih =>
    intro i rem date h
    rw [genLoop]
    split
    · split
      · rename_i hguard hdaily
        simp only [List.map_cons, List.sum_cons]
        have hd_le : min ((randint 100 1000 (rng i) : ℕ) : ℚ) rem ≤ rem :=
          min_le_right _ _
        have hrest := ih (i + 2)
          (rem - min ((randint 100 1000 (rng i) : ℕ) : ℚ) rem)
          (date + randint 1 3 (rng (i + 1))) (by linarith)
        linarith
      · exact ih _ _ _ h
    · simp
      exact h

theorem genLoop_zero_rem (cult cat : CellVal) (rng : ℕ → ℕ)
    (fuel i date : ℕ) : genLoop cult cat rng fuel i 0 date = ([], i) := by
  cases fuel with
  | zero => rfl
  | succ fuel =>
    rw [genLoop]
    simp [lt_irrefl]

theorem sum_take_le_sum :
    ∀ (l : List ℚ), (∀ x ∈ l, 0 ≤ x) → ∀ n : ℕ, (l.take n).sum ≤ l.sum := by
  intro l
  induction l with
  | nil =>
    intro _ n
    simp
  | cons x xs ih =>
    intro h n
    cases n with
    | zero =>
      simp only [List.take_zero, List.sum_nil, List.sum_cons]
      have h1 : (0:ℚ) ≤ xs.sum :=
        List.sum_nonneg (fun y hy => h y (List.mem_cons_of_mem _ hy))
      have h2 := h x (List.mem_cons_self _ _)
      linarith
    | succ n =>
      simp only [List.take_succ_cons, List.sum_cons]
      have := ih (fun y hy => h y (List.mem_cons_of_mem _ hy)) n
      linarith

theorem genLoop_sum_eq (cult cat : CellVal) (rng : ℕ → ℕ) :
    ∀ (fuel i : ℕ) (rem : ℚ) (date : ℕ), date ≤ 60 → 0 ≤ rem →
      rem ≤ 100 * ((min fuel ((60 - date) / 3 + 1) : ℕ) : ℚ) →
      (((genLoop cult cat rng fuel i rem date).1.map
        SampleEntry.volume_sc).sum) = rem := by
  intro fuel
  induction fuel with
  | zero =>
    intro i rem date hdate h0 hb
    have hmin : min 0 ((60 - date) / 3 + 1) = 0 := min_eq_left (Nat.zero_le _)
    rw [hmin] at hb
    simp only [Nat.cast_zero, mul_zero] at hb
    have : rem = 0 := le_antisymm hb h0
    subst this
    simp [genLoop]
  | succ fuel ih =>
    intro i rem date hdate h0 hb
    by_cases hz : rem = 0
    · subst hz
      rw [genLoop_zero_rem]
      simp
    · have hpos : 0 < rem := lt_of_le_of_ne h0 (Ne.symm hz)
      rw [genLoop, if_pos ⟨hpos, hdate⟩]
      have hk100 : (100 : ℚ) ≤ ((randint 100 1000 (rng i) : ℕ) : ℚ) := by
        have : 100 ≤ randint 100 1000 (rng i) := Nat.le_add_right _ _
        exact_mod_cast this
      have hdaily : 0 < min ((randint 100 1000 (rng i) : ℕ) : ℚ) rem :=
        lt_min (by linarith) hpos
      rw [if_pos hdaily]
      simp only [List.map_cons, List.sum_cons]
      by_cases hcase : rem ≤ ((randint 100 1000 (rng i) : ℕ) : ℚ)
      · have hmin : min ((randint 100 1000 (rng i) : ℕ) : ℚ) rem = rem :=
          min_eq_right hcase
        rw [hmin, sub_self, genLoop_zero_rem]
        simp
      · push_neg at hcase
        have hmin : min ((randint 100 1000 (rng i) : ℕ) : ℚ) rem
            = ((randint 100 1000 (rng i) : ℕ) : ℚ) :=
          min_eq_left (le_of_lt hcase)
        rw [hmin]
        have hadv : 1 ≤ randint 1 3 (rng (i + 1)) ∧
            randint 1 3 (rng (i + 1)) ≤ 3 := by
          unfold randint
          omega
        have hrem100 : (100 : ℚ) < rem := lt_of_le_of_lt hk100 hcase
        have hmin2 : 2 ≤ min (fuel + 1) ((60 - date) / 3 + 1) := by
          by_contra hlt
          push_neg at hlt
          have h1 : min (fuel + 1) ((60 - date) / 3 + 1) ≤ 1 := by omega
          have h2 : ((min (fuel + 1) ((60 - date) / 3 + 1) : ℕ) : ℚ) ≤ 1 := by
            exact_mod_cast h1
          nlinarith
        have hdate57 : date ≤ 57 := by omega
        have hdate2 : date + randint 1 3 (rng (i + 1)) ≤ 60 := by omega
        have hnat : min (fuel + 1) ((60 - date) / 3 + 1) - 1
            ≤ min fuel ((60 - (date + randint 1 3 (rng (i + 1)))) / 3 + 1) := by
          omega
        have hcast : ((min (fuel + 1) ((60 - date) / 3 + 1) : ℕ) : ℚ) - 1
            ≤ ((min fuel
                ((60 - (date + randint 1 3 (rng (i + 1)))) / 3 + 1) : ℕ) : ℚ) := by
          have hle := (Nat.cast_le (α := ℚ)).2 hnat
          rw [Nat.cast_sub (by omega)] at hle
          simpa using hle
        have hih := ih (i + 2) (rem - ((randint 100 1000 (rng i) : ℕ) : ℚ))
          (date + randint 1 3 (rng (i + 1))) hdate2 (by linarith)
          (by nlinarith)
        rw [hih]
        ring

theorem genAll_cultivar (rng : ℕ → ℕ) :
    ∀ (main : List CanonRow) (i : ℕ),
      ∀ e ∈ (genAll rng main i).1, e.cultivar ∈ main.map CanonRow.cultivar := by
  intro main
  induction main with
  | nil =>
    intro i e he
    simp [genAll] at he
  | cons r rs ih =>
    intro i e he
    rw [genAll] at he
    rw [List.map_cons]
    split at he
    · rcases List.mem_append.1 he with h1 | h2
      · rw [genLoop_cultivar _ _ _ _ _ _ _ e h1]
        exact List.mem_cons_self _ _
      · exact List.mem_cons_of_mem _ (ih _ e h2)
    · exact List.mem_cons_of_mem _ (ih i e he)

theorem genAll_filter (rng : ℕ → ℕ) :
    ∀ (main : List CanonRow) (i : ℕ),
      (main.map CanonRow.cultivar).Nodup →
      ∀ r ∈ main, 0 < r.recepcao →
      ∃ j, (genAll rng main i).1.filter (fun e => e.cultivar == r.cultivar)
        = (genLoop r.cultivar r.categoria rng 61 j r.recepcao 0).1 := by
  intro main
  induction main with
  | nil =>
    intro i _ r hr
    exact absurd hr (List.not_mem_nil r)
  | cons r0 rs ih =>
    intro i hnd r hr hrec
    rw [List.map_cons, List.nodup_cons] at hnd
    obtain ⟨hnotin, hndrs⟩ := hnd
    rcases List.mem_cons.1 hr with rfl | hmem
    · rw [genAll, if_pos hrec]
      refine ⟨i, ?_⟩
      rw [List.filter_append]
      have h1 : (genLoop r.cultivar r.categoria rng 61 i r.recepcao 0).1.filter
          (fun e => e.cultivar == r.cultivar)
          = (genLoop r.cultivar r.categoria rng 61 i r.recepcao 0).1 :=
        List.filter_eq_self.2 (fun e he =>
          beq_iff_eq.2 (genLoop_cultivar _ _ _ _ _ _ _ e he))
      have h2 : ((genAll rng rs
          (genLoop r.cultivar r.categoria rng 61 i r.recepcao 0).2).1).filter
          (fun e => e.cultivar == r.cultivar) = [] := by
        apply List.filter_eq_nil_iff.2
        intro e he hbeq
        have hce := genAll_cultivar rng rs _ e he
        rw [beq_iff_eq.1 hbeq] at hce
        exact hnotin hce
      rw [h1, h2, List.append_nil]
    · rw [genAll]
      split
      · rw [List.filter_append]
        have h1 : (genLoop r0.cultivar r0.categoria rng 61 i r0.recepcao 0).1.filter
            (fun e => e.cultivar == r.cultivar) = [] := by
          apply List.filter_eq_nil_iff.2
          intro e he hbeq
          rw [genLoop_cultivar _ _ _ _ _ _ _ e he] at hbeq
          have : r.cultivar ∈ rs.map CanonRow.cultivar :=
            List.mem_map_of_mem _ hmem
          rw [beq_iff_eq.1 hbeq] at hnotin
          exact hnotin this
        obtain ⟨j, hj⟩ := ih _ hndrs r hmem hrec
        rw [h1, hj, List.nil_append]
        exact ⟨j, rfl⟩
      · exact ih i hndrs r hmem hrec

/-- C7 (amended): for every canonical record set with pairwise distinct
cultivars and every injectable random stream, the generator keeps the
remaining volume non-negative at every step — every generated daily
volume is positive and every partial sum of a cultivar's generated
volumes stays within its record's Recepcao — and the total generated
volume for a record's cultivar equals its Recepcao exactly whenever the
60-day horizon does not cut generation short, guaranteed when
`Recepcao ≤ 2100` (the horizon always allows at least 21 draws of at
least 100 units); in general the total never exceeds Recepcao. -/
theorem sample_generator_volumes (main : List CanonRow) (rng : ℕ → ℕ)
    (hnd : (main.map CanonRow.cultivar).Nodup) :
    ∀ r ∈ main, 0 < r.recepcao →
      (∀ e ∈ (generate_sample_timeline_data main rng).filter
          (fun e => e.cultivar == r.cultivar), 0 < e.volume_sc) ∧
      (∀ n : ℕ,
        ((((generate_sample_timeline_data main rng).filter
            (fun e => e.cultivar == r.cultivar)).map
            SampleEntry.volume_sc).take n).sum ≤ r.recepcao) ∧
      (r.recepcao ≤ 2100 →
        (((generate_sample_timeline_data main rng).filter
            (fun e => e.cultivar == r.cultivar)).map
            SampleEntry.volume_sc).sum = r.recepcao) := by
  intro r hr hrec
  obtain ⟨j, hj⟩ := genAll_filter rng main 0 hnd r hr hrec
  unfold generate_sample_timeline_data
  rw [hj]
  refine ⟨?_, ?_, ?_⟩
  · intro e he
    exact genLoop_volume_pos _ _ _ _ _ _ _ e he
  · intro n
    have hpos : ∀ x ∈ (genLoop r.cultivar r.categoria rng 61 j
        r.recepcao 0).1.map SampleEntry.volume_sc, 0 ≤ x := by
      intro x hx
      obtain ⟨e, he, rfl⟩ := List.mem_map.1 hx
      exact le_of_lt (genLoop_volume_pos _ _ _ _ _ _ _ e he)
    calc ((((genLoop r.cultivar r.categoria rng 61 j r.recepcao 0).1.map
            SampleEntry.volume_sc).take n).sum)
        ≤ ((genLoop r.cultivar r.categoria rng 61 j r.recepcao 0).1.map
            SampleEntry.volume_sc).sum := sum_take_le_sum _ hpos n
      _ ≤ r.recepcao := genLoop_sum_le _ _ _ _ _ _ _ (le_of_lt hrec)
  · intro hle
    apply genLoop_sum_eq _ _ _ 61 j r.recepcao 0 (by omega) (le_of_lt hrec)
    have : min 61 ((60 - 0) / 3 + 1) = 21 := by omega
    rw [this]
    exact_mod_cast hle

theorem genLoop_length_le (cult cat : CellVal) (rng : ℕ → ℕ) :
    ∀ (fuel i : ℕ) (rem : ℚ) (date : ℕ),
      (genLoop cult cat rng fuel i rem date).1.length ≤ fuel := by
  intro fuel
  induction fuel with
  | zero =>
    intro i rem date
    simp [genLoop]
  | succ fuel ih =>
    intro i rem date
    rw [genLoop]
    split
    · split
      · simp only [List.length_cons]
        exact Nat.succ_le_succ (ih _ _ _)
      · exact le_trans (ih _ _ _) (Nat.le_succ _)
    · simp

theorem genLoop_volume_le (cult cat : CellVal) (rng : ℕ → ℕ) :
    ∀ (fuel i : ℕ) (rem : ℚ) (date : ℕ),
      ∀ e ∈ (genLoop cult cat rng fuel i rem date).1,
        e.volume_sc ≤ 1000 := by
  intro fuel
  induction fuel with
  | zero =>
    intro i rem date e he
    simp [genLoop] at he
  | succ fuel ih =>
    intro i rem date e he
    rw [genLoop] at he
    split at he
    · split at he
      · rcases List.mem_cons.1 he with rfl | he2
        · have hnat : randint 100 1000 (rng i) ≤ 1000 := by
            unfold randint
            omega
          have hcast : ((randint 100 1000 (rng i) : ℕ) : ℚ) ≤ 1000 := by
            exact_mod_cast hnat
          exact le_trans (min_le_left _ _) hcast
        · exact ih _ _ _ e he2
      · exact ih _ _ _ e he
    · simp at he

/-- The single record of the C7 counterexample set: Recepcao = 100000. -/
def c7Row : CanonRow :=
  { cultivar := .str "A", prev_colheita := 0, prev_receb := 100000,
    recepcao := 100000, categoria := .str "C", percent := 100,
    status := .str "OK" }

/-- C7 counterexample: with Recepcao = 100000, for any random stream the
generation loop stops at the 60-day horizon after at most 61 draws of at
most 1000 units, so the generated total (at most 61000) cannot equal the
record's Recepcao; exhibited at the constant-zero stream. -/
theorem sample_generator_volumes_cex :
    (((generate_sample_timeline_data [c7Row] (fun _ => 0)).filter
        (fun e => e.cultivar == c7Row.cultivar)).map
        SampleEntry.volume_sc).sum ≠ c7Row.recepcao ∧
    c7Row.recepcao = 100000 := by
  constructor
  · obtain ⟨j, hj⟩ := genAll_filter (fun _ => 0) [c7Row] 0 (by decide)
      c7Row (List.mem_cons_self c7Row []) (by with_unfolding_all decide)
    unfold generate_sample_timeline_data
    rw [hj]
    intro heq
    have hvol : ∀ x ∈ (genLoop c7Row.cultivar c7Row.categoria (fun _ => 0)
        61 j c7Row.recepcao 0).1.map SampleEntry.volume_sc, x ≤ (1000:ℚ) := by
      intro x hx
      obtain ⟨e, he, rfl⟩ := List.mem_map.1 hx
      exact genLoop_volume_le _ _ _ _ _ _ _ e he
    have hsum := List.sum_le_card_nsmul _ (1000:ℚ) hvol
    have hlen : ((genLoop c7Row.cultivar c7Row.categoria (fun _ => 0)
        61 j c7Row.recepcao 0).1.map SampleEntry.volume_sc).length ≤ 61 := by
      rw [List.length_map]
      exact genLoop_length_le _ _ _ _ _ _ _
    rw [nsmul_eq_mul] at hsum
    have hcastlen : (((genLoop c7Row.cultivar c7Row.categoria (fun _ => 0)
        61 j c7Row.recepcao 0).1.map SampleEntry.volume_sc).length : ℚ)
        ≤ 61 := by
      exact_mod_cast hlen
    have hrec : c7Row.recepcao = 100000 := rfl
    nlinarith [hsum, hcastlen, heq, hrec]
  · rfl

/-- Canonical row with Recepcao = 600 (C7 witness input). -/
def c7WRow : CanonRow :=
  { cultivar := .str "A", prev_colheita := 0, prev_receb := 600,
    recepcao := 600, categoria := .str "C", percent := 100,
    status := .str "OK" }

/-- Witness for C7: for the one-record set `[c7WRow]` (its Recepcao of
600 is at most 2100) and the constant-zero stream, every generated
volume is positive and the generated total equals Recepcao exactly. -/
theorem sample_generator_volumes_witness :
    (((generate_sample_timeline_data [c7WRow] (fun _ => 0)).filter
        (fun e => e.cultivar == c7WRow.cultivar)).map
        SampleEntry.volume_sc).sum = c7WRow.recepcao :=
  (sample_generator_volumes [c7WRow] (fun _ => 0) (by decide) c7WRow
    (List.mem_cons_self c7WRow []) (by with_unfolding_all decide)).2.2
    (by with_unfolding_all decide)
